import Mathlib

/-!
Verification development for the LegendasTv subtitle provider
(`src/lib/subliminal/providers/legendastv.py`).

The provider's pure core is shallowly embedded here:
- the metadata matching predicate `LegendasTvProvider.matches`;
- the candidate normalization pass `LegendasTvProvider.search_candidates`
  (record projection, type mapping, imdb-id and season regex extraction,
  numeric coercion, filtering through the matcher);
- the archive inspector (`get_subtitle_names`, `extract_subtitle`,
  `_uncompress`);
- the final ranking sort performed at the end of `LegendasTvProvider.query`.

Python strings are Lean `String`s (operated on through their character
lists, so that everything reduces in the kernel), Python `bytes` are
`List Nat`, optional/nullable values are `Option`, dynamically typed
dictionary fields are the closed variant `FieldVal`, and Python
exceptions are `Except String`.  Helper functions of the repository that
live outside `src/` (`sanitized_string_equal`, `fix_line_ending`,
`SUBTITLE_EXTENSIONS`) are modelled from the spec, as marked in their
doc comments.
-/

/-! ### Character/string helpers -/

/-- Lowercase-prefix test on character lists: `startsWithList n h` is true
iff `n` is a prefix of `h` (used to build substring containment). -/
def startsWithList : List Char → List Char → Bool
  | [], _ => true
  | _ :: _, [] => false
  | a :: as, b :: bs => a == b && startsWithList as bs

/-- Substring containment on character lists: Python's `needle in hay`. -/
def occursIn (needle : List Char) : List Char → Bool
  | [] => startsWithList needle []
  | c :: rest => startsWithList needle (c :: rest) || occursIn needle rest

/-- Python's `needle in hay` on strings (`str.__contains__`). -/
def strOccurs (needle hay : String) : Bool := occursIn needle.data hay.data

/-- Python's `str.lower`, over the character list. -/
def lowerStr (s : String) : String := String.mk (s.data.map Char.toLower)

/-- Suffix test: Python's `str.endswith` for a single suffix. -/
def endsWithStr (s suf : String) : Bool := startsWithList suf.data.reverse s.data.reverse

/-- Python's `str.isdigit` (true iff non-empty and all characters digits). -/
def pyIsDigit (s : String) : Bool := s ≠ "" && s.data.all Char.isDigit

/-- Numeric value of an all-digit string, Python's `int(s)`. -/
def natOfDigits (l : List Char) : Nat := l.foldl (fun n c => n * 10 + (c.toNat - 48)) 0

/-! ### The sanitized string comparison (external to `src/`) -/

/-- Modelled from the spec: `sanitized_string_equal` is imported from
`subliminal.subtitle`, which is not under `src/`.  Spec §4.1: "Fuzzy-equal
means: normalize by case-folding and stripping punctuation/diacritics
before comparing".  The normalization keeps (lowercased) alphanumeric
characters and spaces and drops everything else. -/
def sanitizeStr (s : String) : String :=
  String.mk ((s.data.map Char.toLower).filter (fun c => c.isAlphanum || c == ' '))

/-- Modelled from the spec: the comparison underlying the matcher
(`sanitizedEqual(a, b, allowPartial)` in spec §6): sanitized strings are
compared for equality; in partial mode "containment (one string is a
substring of the normalized other)" also counts as equal. -/
def sanitized_string_equal (string1 string2 : String) (allowPartial : Bool) : Bool :=
  let a := sanitizeStr string1
  let b := sanitizeStr string2
  a == b || (allowPartial && (occursIn a.data b.data || occursIn b.data a.data))

/-- Modelled from the spec: lift of `sanitized_string_equal` to a possibly
missing actual title (`actual_properties.get('title')` may be `None`); a
missing side never equals the expected title. -/
def sanitizedStringEqualOpt (expected : String) (actual : Option String) (allowPartial : Bool) : Bool :=
  match actual with
  | some s => sanitized_string_equal expected s allowPartial
  | Option.none => false

/-! ### The metadata matcher (`LegendasTvProvider.matches`) -/

/-- Python truthiness of an optional integer (`None` and `0` are falsy). -/
def pyTruthy : Option Nat → Bool
  | some n => n != 0
  | Option.none => false

/-- Shape of the `actual_properties` dictionary consumed by the matcher: the
guessit-style keys `type`, `title`, `season`, `episode`, `year`, each
possibly absent. -/
structure ActualProps where
  type : Option String
  title : Option String
  season : Option Nat
  episode : Option Nat
  year : Option Nat
deriving DecidableEq, Repr

/-- Embedding of `LegendasTvProvider.matches` (legendastv.py lines 112-156).
`matches` is a reserved token in Lean, hence the name `matchesPred`.
The structure mirrors the source line by line: derive the expected type
from the truthiness of `expected_season`; reject on type mismatch; in the
movie branch require a partial sanitized title match, and when the years
differ reject if both are (truthily) present, otherwise require an exact
sanitized title match; in the episode branch require a partial sanitized
title match, equal seasons, and (unless `ignore_episode`) equal episodes. -/
def matchesPred (actual_properties : ActualProps) (expected_title : String)
    (expected_season expected_episode expected_year : Option Nat)
    (ignore_episode : Bool) : Bool :=
  let expected_type : String := if pyTruthy expected_season then "episode" else "movie"
  if some expected_type ≠ actual_properties.type then false
  else if expected_type = "movie" then
    if sanitizedStringEqualOpt expected_title actual_properties.title true = false then false
    else if expected_year ≠ actual_properties.year then
      if pyTruthy expected_year && pyTruthy actual_properties.year then false
      else if sanitizedStringEqualOpt expected_title actual_properties.title false = false then false
      else true
    else true
  else if expected_type = "episode" then
    if sanitizedStringEqualOpt expected_title actual_properties.title true = false then false
    else if expected_season ≠ actual_properties.season then false
    else if ignore_episode = false ∧ expected_episode ≠ actual_properties.episode then false
    else true
  else true

/-! ### The candidate normalizer (`LegendasTvProvider.search_candidates`) -/

/-- Value of a field of the dynamically typed `item` dictionary built in
`search_candidates`: absent/`None`, a string, or (after coercion) an
integer. -/
inductive FieldVal where
  | none : FieldVal
  | str : String → FieldVal
  | int : Nat → FieldVal
deriving DecidableEq, Repr

/-- Python truthiness of a `FieldVal` (`None`, `''` and `0` are falsy). -/
def fvTruthy : FieldVal → Bool
  | FieldVal.none => false
  | FieldVal.str s => s ≠ ""
  | FieldVal.int n => n != 0

/-- The `_source` object of one raw search hit, restricted to the keys read
by the field mapping in `search_candidates` (lines 230-239); each may be
null in the JSON. -/
structure RawSource where
  id_filme : Option String
  tipo : Option String
  dsc_nome : Option String
  temporada : Option String
  dsc_data_lancamento : Option String
  dsc_nome_br : Option String
  id_imdb : Option String
deriving DecidableEq, Repr

/-- One element of the JSON list returned by `/legenda/sugestao`: the code
accesses only `result['_source']`; `source = none` models a hit without a
`'_source'` key (that access raises `KeyError`). -/
structure RawHit where
  source : Option RawSource
deriving DecidableEq, Repr

/-- The normalized `item` dictionary (guessit-style keys, line 257). -/
structure Item where
  id : FieldVal
  type : FieldVal
  title : FieldVal
  series : FieldVal
  season : FieldVal
  year : FieldVal
  title_br : FieldVal
  imdb_id : FieldVal
deriving DecidableEq, Repr

/-- Lift of a raw (string-or-null) field into a `FieldVal`. -/
def ofOpt : Option String → FieldVal
  | some s => FieldVal.str s
  | Option.none => FieldVal.none

/-- The field-name mapping of lines 230-239 applied to one `_source`
object: `item = {k: entry.get(v) for k, v in mapping.items()}`. -/
def baseItem (entry : RawSource) : Item :=
  { id := ofOpt entry.id_filme
    type := ofOpt entry.tipo
    title := ofOpt entry.dsc_nome
    series := ofOpt entry.dsc_nome
    season := ofOpt entry.temporada
    year := ofOpt entry.dsc_data_lancamento
    title_br := ofOpt entry.dsc_nome_br
    imdb_id := ofOpt entry.id_imdb }

/-- The `type_map` lookup with default (line 242-246, 258):
`{'M': 'movie', 'S': 'episode', 'C': 'episode'}.get(item.get('type'), 'movie')`. -/
def typeMap : FieldVal → String
  | FieldVal.str "M" => "movie"
  | FieldVal.str "S" => "episode"
  | FieldVal.str "C" => "episode"
  | _ => "movie"

/-- Leading digit run of a character list (the greedy `\d+`). -/
def leadDigits (l : List Char) : List Char := l.takeWhile Char.isDigit

/-- Match of the IMDB-id regex `t{0,2}(\d+)` anchored at the current
position, with the backtracking preference of the Python engine: try two
`t` characters, then one, then none, and return the greedy digit group. -/
def imdbAt : List Char → Option String
  | 't' :: 't' :: rest =>
    if leadDigits rest ≠ [] then some (String.mk (leadDigits rest)) else Option.none
  | 't' :: rest =>
    if leadDigits rest ≠ [] then some (String.mk (leadDigits rest)) else Option.none
  | c :: rest => if c.isDigit then some (String.mk (leadDigits (c :: rest))) else Option.none
  | [] => Option.none

/-- Leftmost-position scan of `imdbAt`: Python's
`re.compile('t{0,2}(\d+)').search(s)` returning `group(1)` (line 252, 259-260). -/
def imdbSearchAux : List Char → Option String
  | [] => Option.none
  | c :: rest =>
    match imdbAt (c :: rest) with
    | some g => some g
    | Option.none => imdbSearchAux rest

/-- IMDB-id extraction from a string field (`imdb_re.search`). -/
def imdbSearch (s : String) : Option String := imdbSearchAux s.data

/-- Case-insensitive anchored match of a literal word (the regex
alternative `(emporada)|(Season)` under `re.IGNORECASE`). -/
def startsWithCI (word : String) (l : List Char) : Bool :=
  startsWithList (word.data.map Char.toLower) (l.map Char.toLower)

/-- Tail of the season regex after the digit group: `.*?((emporada)|(Season))`
under `re.IGNORECASE`; the lazy `.*?` may consume any characters except a
newline before one of the two words starts. -/
def hasSeasonWordTail : List Char → Bool
  | [] => false
  | c :: rest =>
    startsWithCI "emporada" (c :: rest) || startsWithCI "season" (c :: rest) ||
      (c ≠ '\n' && hasSeasonWordTail rest)

/-- Match of the season regex `.*? - (\d{1,2}).*?((emporada)|(Season))`
(line 249) with its literal ` - ` anchored at the current position: after
the separator take two digits if possible (the greedy `{1,2}`), falling
back to one, and require the word tail afterwards; `group(1)` is the digit
run taken. -/
def seasonAt : List Char → Option String
  | ' ' :: '-' :: ' ' :: d1 :: d2 :: rest2 =>
    if d1.isDigit && d2.isDigit && hasSeasonWordTail rest2 then some (String.mk [d1, d2])
    else if d1.isDigit && hasSeasonWordTail (d2 :: rest2) then some (String.mk [d1])
    else Option.none
  | _ => Option.none

/-- Scan of `seasonAt` over all positions: `season_re.search(s)` returning
`group(1)` (the leading lazy `.*?` of the pattern together with
`re.search`'s own position scan reach every candidate position of the
literal ` - `). -/
def seasonSearchAux : List Char → Option String
  | [] => Option.none
  | c :: rest =>
    match seasonAt (c :: rest) with
    | some g => some g
    | Option.none => seasonSearchAux rest

/-- Season-number extraction from the localized title (`season_re.search`,
lines 263-265). -/
def seasonSearch (s : String) : Option String := seasonSearchAux s.data

/-- Wrap a regex search result back into a field value (`match.group(1)`
when a match exists, else `None`). -/
def searchToField : Option String → FieldVal
  | some g => FieldVal.str g
  | Option.none => FieldVal.none

/-- The numeric coercion of lines 267-270:
`item[field] = int(field_text) if field_text and field_text.isdigit() else None`.
On a (truthy) integer value `.isdigit` would raise `AttributeError`; that
state is unreachable in the pipeline but kept for totality. -/
def coerceIntField : FieldVal → Except String FieldVal
  | FieldVal.str s =>
    Except.ok (if pyIsDigit s then FieldVal.int (natOfDigits s.data) else FieldVal.none)
  | FieldVal.none => Except.ok FieldVal.none
  | FieldVal.int n =>
    if n = 0 then Except.ok FieldVal.none
    else Except.error "AttributeError: int object has no attribute isdigit"

/-- The season fallback of lines 262-265: when `item['season']` is falsy and
`item['title_br']` truthy, recover the season from the localized title via
the season regex. -/
def seasonFallback (item : Item) : Item :=
  if fvTruthy item.season = false && fvTruthy item.title_br then
    { item with
      season :=
        match item.title_br with
        | FieldVal.str t => searchToField (seasonSearch t)
        | _ => FieldVal.none }
  else item

/-- The imdb-id extraction of lines 259-260:
`imdb_match = imdb_re.search(item.get('imdb_id'))` followed by
`item['imdb_id'] = imdb_match.group(1) if imdb_match else None`; passing a
non-string (in particular `None`) to `re.search` raises `TypeError`. -/
def imdbPhase (item : Item) : Except String Item :=
  match item.imdb_id with
  | FieldVal.str s => Except.ok { item with imdb_id := searchToField (imdbSearch s) }
  | _ => Except.error "TypeError: expected string or bytes-like object"

/-- The coercion loop of lines 267-270 over the fields `season`, `year`,
`imdb_id`, in that order; the first exception aborts. -/
def coercePhase (item : Item) : Except String Item :=
  match coerceIntField item.season with
  | Except.error m => Except.error m
  | Except.ok sv =>
    match coerceIntField item.year with
    | Except.error m => Except.error m
    | Except.ok yv =>
      match coerceIntField item.imdb_id with
      | Except.error m => Except.error m
      | Except.ok iv => Except.ok { item with season := sv, year := yv, imdb_id := iv }

/-- Normalization of a single raw hit (the body of the loop at lines
255-270): project `_source` through the mapping (raising `KeyError` when
the key is absent), apply the type map, extract the imdb id, recover a
missing season from the localized title, and coerce `season`, `year` and
`imdb_id` to integers. -/
def processHit (hit : RawHit) : Except String Item :=
  match hit.source with
  | Option.none => Except.error "KeyError: _source"
  | some entry =>
    match imdbPhase { baseItem entry with type := FieldVal.str (typeMap (baseItem entry).type) } with
    | Except.error m => Except.error m
    | Except.ok item2 => coercePhase (seasonFallback item2)

/-- View of a normalized item as the `actual_properties` dictionary handed
to the matcher at line 273 (the item has no `episode` key). -/
def itemToActual (item : Item) : ActualProps :=
  { type := match item.type with | FieldVal.str s => some s | _ => Option.none
    title := match item.title with | FieldVal.str s => some s | _ => Option.none
    season := match item.season with | FieldVal.int n => some n | _ => Option.none
    episode := Option.none
    year := match item.year with | FieldVal.int n => some n | _ => Option.none }

/-- Embedding of `search_candidates` (lines 254-278) applied to the decoded
JSON list: normalize each hit in order (any exception aborts the whole
pass), keep the items accepted by the matcher with `ignore_episode=True`. -/
def search_candidates (title : String) (season episode year : Option Nat) :
    List RawHit → Except String (List Item)
  | [] => Except.ok []
  | hit :: rest =>
    match processHit hit with
    | Except.error m => Except.error m
    | Except.ok item =>
      match search_candidates title season episode year rest with
      | Except.error m => Except.error m
      | Except.ok cs =>
        Except.ok
          (if matchesPred (itemToActual item) title season episode year true then item :: cs
           else cs)

/-! ### The archive inspector (`get_subtitle_names`, `extract_subtitle`, `_uncompress`) -/

/-- An open archive as seen through the external `rarfile.RarFile` /
`zipfile.ZipFile` collaborators: its member name list (`cf.namelist()`)
and per-member content (`cf.read(name)`), with bytes as `List Nat`. -/
structure ArchiveFile where
  namelist : List String
  read : String → List Nat

/-- Modelled from the spec: the downloaded bytes as classified by the
external format probes `is_rarfile` / `is_zipfile` used in `_uncompress`
(spec §9: a "small closed variant {Zip, Rar, Unrecognized} produced by a
pure detection function over the byte buffer").  The archive parsers are
external libraries, so recognized bytes are carried as the parsed
`ArchiveFile` and unrecognized bytes as the raw byte list. -/
inductive DownloadedContent where
  | rar : ArchiveFile → DownloadedContent
  | zip : ArchiveFile → DownloadedContent
  | unrecognized : List Nat → DownloadedContent

/-- Embedding of `LegendasTvProvider._uncompress` (lines 438-443):
`cf = RarFile(bc) if is_rarfile(bc) else (ZipFile(bc) if is_zipfile(bc) else None)`
and `return function(cf, ...) if cf else None`. -/
def uncompress {α : Type} (content : DownloadedContent) (function_ : ArchiveFile → α) : Option α :=
  match content with
  | DownloadedContent.rar cf => some (function_ cf)
  | DownloadedContent.zip cf => some (function_ cf)
  | DownloadedContent.unrecognized _ => Option.none

/-- Modelled from the spec: `SUBTITLE_EXTENSIONS` is imported from
`subliminal.video`, which is not under `src/`; the spec calls it "the
configured subtitle-extension allow-list" and its example requires
`.srt` to be allowed and `.nfo` not to be. -/
def SUBTITLE_EXTENSIONS : List String := [".srt", ".sub", ".smi", ".txt", ".ssa", ".ass", ".mpl"]

/-- The member-name filter of `get_subtitle_names` (lines 423-424):
`'legendas.tv' not in f.lower() and f.lower().endswith(SUBTITLE_EXTENSIONS)`. -/
def subtitleNameOk (f : String) : Bool :=
  !(strOccurs "legendas.tv" (lowerStr f)) &&
    SUBTITLE_EXTENSIONS.any (fun ext => endsWithStr (lowerStr f) ext)

/-- Embedding of `LegendasTvProvider.get_subtitle_names` (lines 413-424). -/
def get_subtitle_names (content : DownloadedContent) : Option (List String) :=
  uncompress content (fun cf => cf.namelist.filter subtitleNameOk)

/-- Modelled from the spec: `fix_line_ending` is imported from
`subliminal.subtitle`, which is not under `src/`; per the spec it
normalizes "line endings to the platform-neutral form", i.e. rewrites each
CRLF (13, 10) byte pair to a single LF (10). -/
def fix_line_ending : List Nat → List Nat
  | 13 :: 10 :: rest => 10 :: fix_line_ending rest
  | b :: rest => b :: fix_line_ending rest
  | [] => []

/-- Embedding of `LegendasTvProvider.extract_subtitle` (lines 426-436):
`self._uncompress(content, lambda cf, name: fix_line_ending(cf.read(name)), subtitle_name)`. -/
def extract_subtitle (content : DownloadedContent) (subtitle_name : String) : Option (List Nat) :=
  uncompress content (fun cf => fix_line_ending (cf.read subtitle_name))

/-! ### The final ranking sort (`LegendasTvProvider.query`, lines 388-391) -/

/-- The fields of a `LegendasTvSubtitle` read by the ranking key
`lambda s: (s.featured, s.no_downloads, s.rating, s.multiple_episodes)`;
`no_downloads` and `rating` may be `None` (regex parse failure), `name`
carries the record's identity. -/
structure LtvSubtitle where
  name : String
  featured : Bool
  no_downloads : Option Nat
  rating : Option Nat
  multiple_episodes : Bool
deriving DecidableEq, Repr

/-- Value of a boolean inside a Python 2 comparison key (False = 0, True = 1). -/
def pyBoolVal (b : Bool) : Nat := if b then 1 else 0

/-- Value of an optional count inside a Python 2 comparison key: `None`
compares below every integer, and the parsed counts are non-negative, so
`None ↦ 0` and `n ↦ n + 1` is an order-preserving encoding. -/
def pyOptVal : Option Nat → Nat
  | Option.none => 0
  | some n => n + 1

/-- The sort key of line 389: `(s.featured, s.no_downloads, s.rating,
s.multiple_episodes)`, encoded as a tuple of naturals ordered exactly as
Python 2 orders the original tuple. -/
def sortKey (s : LtvSubtitle) : Nat × Nat × Nat × Nat :=
  (pyBoolVal s.featured, pyOptVal s.no_downloads, pyOptVal s.rating,
    pyBoolVal s.multiple_episodes)

/-- Lexicographic strict order on sort keys (Python 2 tuple `<`). -/
def keyLt (k1 k2 : Nat × Nat × Nat × Nat) : Prop :=
  k1.1 < k2.1 ∨ (k1.1 = k2.1 ∧ (k1.2.1 < k2.2.1 ∨ (k1.2.1 = k2.2.1 ∧
    (k1.2.2.1 < k2.2.2.1 ∨ (k1.2.2.1 = k2.2.2.1 ∧ k1.2.2.2 < k2.2.2.2)))))

instance (k1 k2 : Nat × Nat × Nat × Nat) : Decidable (keyLt k1 k2) := by
  unfold keyLt
  infer_instance

/-- Lexicographic non-strict order on sort keys (Python 2 tuple `<=`). -/
def keyLe (k1 k2 : Nat × Nat × Nat × Nat) : Prop := keyLt k1 k2 ∨ k1 = k2

instance (k1 k2 : Nat × Nat × Nat × Nat) : Decidable (keyLe k1 k2) := by
  unfold keyLe
  infer_instance

/-- Stable descending insertion: place `x` before the first element whose
key is less than or equal to `x`'s key.  Elements inserted later (i.e.
appearing earlier in the traversal) therefore land before equal-key
elements, which is exactly the guarantee of Python's stable
`list.sort(key=..., reverse=True)`. -/
def insertDesc (x : LtvSubtitle) : List LtvSubtitle → List LtvSubtitle
  | [] => [x]
  | y :: ys => if keyLe (sortKey y) (sortKey x) then x :: y :: ys else y :: insertDesc x ys

/-- Embedding of the final sort at line 389,
`subtitles.sort(key=lambda s: (s.featured, s.no_downloads, s.rating,
s.multiple_episodes), reverse=True)`, realized as a stable insertion sort
(Python's sort is specified as stable; `reverse=True` orders keys
descending while preserving the original order of equal keys). -/
def sortSubtitles (l : List LtvSubtitle) : List LtvSubtitle := l.foldr insertDesc []

/-! ### Concrete data used by the theorems -/

/-- Ranking record (featured, 10 downloads, rating 8, single release). -/
def recA : LtvSubtitle := ⟨"A", true, some 10, some 8, false⟩

/-- Ranking record (featured, 10 downloads, rating 8, pack). -/
def recB : LtvSubtitle := ⟨"B", true, some 10, some 8, true⟩

/-- Ranking record (not featured, 100 downloads, rating 10, single release). -/
def recC : LtvSubtitle := ⟨"C", false, some 100, some 10, false⟩

/-- Ranking record (not featured, 0 downloads, rating 0, single release). -/
def recD : LtvSubtitle := ⟨"D", false, some 0, some 0, false⟩

/-- A recognized ZIP archive holding a subtitle file and the site's
watermark file. -/
def zipExample : ArchiveFile := ⟨["Show.S01E01.srt", "legendas.tv.nfo"], fun _ => []⟩

/-- The Breaking Bad raw `_source` object from the JSON sample quoted in
the source (lines 180-220): the explicit season field is null and the
localized title carries the season. -/
def bbSource : RawSource :=
  { id_filme := some "24551", tipo := some "S", dsc_nome := some "Breaking Bad",
    temporada := Option.none, dsc_data_lancamento := some "2011",
    dsc_nome_br := some "Breaking Bad - 4ª Temporada", id_imdb := some "903747" }

/-- A well-formed movie raw `_source` object. -/
def movieSource : RawSource :=
  { id_filme := some "7", tipo := some "M", dsc_nome := some "Up",
    temporada := Option.none, dsc_data_lancamento := some "2009",
    dsc_nome_br := some "Up Altas Aventuras", id_imdb := some "tt1049413" }

/-- A raw hit without a `'_source'` key. -/
def noSourceHit : RawHit := ⟨Option.none⟩

/-- A raw hit whose `_source` carries a null imdb-id field. -/
def nullImdbHit : RawHit :=
  ⟨some { id_filme := some "1", tipo := some "M", dsc_nome := some "Up",
          temporada := Option.none, dsc_data_lancamento := Option.none,
          dsc_nome_br := Option.none, id_imdb := Option.none }⟩

/-! ### Helper lemmas on the ranking order -/

theorem keyLe_refl (k : Nat × Nat × Nat × Nat) : keyLe k k := Or.inr rfl

theorem keyLe_trans {k1 k2 k3 : Nat × Nat × Nat × Nat} (h1 : keyLe k1 k2) (h2 : keyLe k2 k3) :
    keyLe k1 k3 := by
  obtain ⟨a1, b1, c1, d1⟩ := k1
  obtain ⟨a2, b2, c2, d2⟩ := k2
  obtain ⟨a3, b3, c3, d3⟩ := k3
  simp only [keyLe, keyLt, Prod.mk.injEq] at h1 h2 ⊢
  omega

theorem keyLe_of_not_keyLe {k1 k2 : Nat × Nat × Nat × Nat} (h : ¬ keyLe k1 k2) : keyLe k2 k1 := by
  obtain ⟨a1, b1, c1, d1⟩ := k1
  obtain ⟨a2, b2, c2, d2⟩ := k2
  simp only [keyLe, keyLt, Prod.mk.injEq] at h ⊢
  omega

theorem insertDesc_perm (x : LtvSubtitle) (l : List LtvSubtitle) :
    List.Perm (insertDesc x l) (x :: l) := by
  induction l with
  | nil => simp [insertDesc]
  | cons y ys ih =>
    simp only [insertDesc]
    split
    · exact List.Perm.refl _
    · exact List.Perm.trans (List.Perm.cons y ih) (List.Perm.swap x y ys)

theorem insertDesc_pairwise (x : LtvSubtitle) (l : List LtvSubtitle)
    (h : List.Pairwise (fun a b => keyLe (sortKey b) (sortKey a)) l) :
    List.Pairwise (fun a b => keyLe (sortKey b) (sortKey a)) (insertDesc x l) := by
  induction l with
  | nil => simp [insertDesc]
  | cons y ys ih =>
    simp only [insertDesc]
    rcases h with _ | ⟨hy, hys⟩
    split
    · rename_i hc
      refine List.Pairwise.cons ?_ (List.Pairwise.cons hy hys)
      intro z hz
      rcases hz with _ | hz
      · exact hc
      · exact keyLe_trans (hy z (by assumption)) hc
    · rename_i hc
      refine List.Pairwise.cons ?_ (ih hys)
      intro z hz
      have hz' : z ∈ x :: ys := (insertDesc_perm x ys).mem_iff.mp hz
      rcases hz' with _ | hz'
      · exact keyLe_of_not_keyLe hc
      · exact hy z (by assumption)

theorem insertDesc_filter (x : LtvSubtitle) (l : List LtvSubtitle) (k : Nat × Nat × Nat × Nat) :
    (insertDesc x l).filter (fun s => decide (sortKey s = k)) =
      if sortKey x = k then x :: l.filter (fun s => decide (sortKey s = k))
      else l.filter (fun s => decide (sortKey s = k)) := by
  induction l with
  | nil => by_cases hx : sortKey x = k <;> simp [insertDesc, List.filter, hx]
  | cons y ys ih =>
    simp only [insertDesc]
    split
    · split <;> simp_all [List.filter]
    · rename_i hc
      by_cases hx : sortKey x = k
      · have hy : ¬ sortKey y = k := by
          intro hyk
          exact hc (hx ▸ hyk ▸ keyLe_refl _)
        simp [List.filter_cons, hx, hy, ih]
      · simp [List.filter_cons, hx, ih]

theorem sortSubtitles_pairwise (l : List LtvSubtitle) :
    List.Pairwise (fun a b => keyLe (sortKey b) (sortKey a)) (sortSubtitles l) := by
  induction l with
  | nil => simp [sortSubtitles]
  | cons x xs ih => exact insertDesc_pairwise x _ ih

theorem sortSubtitles_perm (l : List LtvSubtitle) : List.Perm (sortSubtitles l) l := by
  induction l with
  | nil => simp [sortSubtitles]
  | cons x xs ih =>
    exact List.Perm.trans (insertDesc_perm x _) (List.Perm.cons x ih)

theorem sortSubtitles_stable (l : List LtvSubtitle) (k : Nat × Nat × Nat × Nat) :
    (sortSubtitles l).filter (fun s => decide (sortKey s = k)) =
      l.filter (fun s => decide (sortKey s = k)) := by
  induction l with
  | nil => rfl
  | cons x xs ih =>
    show (insertDesc x (sortSubtitles xs)).filter _ = _
    rw [insertDesc_filter]
    by_cases hx : sortKey x = k <;> simp [List.filter_cons, hx, ih]

/-! ### Helper lemmas on the candidate normalizer -/

/-- A field value that is an integer or absent (never a string); the shape
the coercion loop guarantees for `season`, `year` and `imdb_id`. -/
def intOrNone (v : FieldVal) : Prop := (∃ n, v = FieldVal.int n) ∨ v = FieldVal.none

theorem coerceIntField_shape (v w : FieldVal) (h : coerceIntField v = Except.ok w) :
    intOrNone w := by
  cases v with
  | str s =>
    simp only [coerceIntField, Except.ok.injEq] at h
    subst h
    split
    · exact Or.inl ⟨_, rfl⟩
    · exact Or.inr rfl
  | none =>
    simp only [coerceIntField, Except.ok.injEq] at h
    exact Or.inr h.symm
  | int n =>
    simp only [coerceIntField] at h
    split at h
    · simp only [Except.ok.injEq] at h
      exact Or.inr h.symm
    · simp at h

theorem seasonFallback_type (it : Item) : (seasonFallback it).type = it.type := by
  unfold seasonFallback
  split <;> rfl

theorem coercePhase_shape (it out : Item) (h : coercePhase it = Except.ok out) :
    out.type = it.type ∧ intOrNone out.season ∧ intOrNone out.year ∧ intOrNone out.imdb_id := by
  unfold coercePhase at h
  cases hs : coerceIntField it.season with
  | error m => rw [hs] at h; simp at h
  | ok sv =>
    rw [hs] at h
    cases hy : coerceIntField it.year with
    | error m => rw [hy] at h; simp at h
    | ok yv =>
      rw [hy] at h
      cases hi : coerceIntField it.imdb_id with
      | error m => rw [hi] at h; simp at h
      | ok iv =>
        rw [hi] at h
        simp only [Except.ok.injEq] at h
        subst h
        exact ⟨rfl, coerceIntField_shape _ _ hs, coerceIntField_shape _ _ hy,
          coerceIntField_shape _ _ hi⟩

theorem typeMap_shape (v : FieldVal) : typeMap v = "movie" ∨ typeMap v = "episode" := by
  unfold typeMap
  split <;> simp

theorem imdbPhase_type (it out : Item) (h : imdbPhase it = Except.ok out) :
    out.type = it.type := by
  unfold imdbPhase at h
  split at h
  · simp only [Except.ok.injEq] at h
    subst h
    rfl
  · simp at h

theorem processHit_shape (h : RawHit) (it : Item) (hok : processHit h = Except.ok it) :
    (it.type = FieldVal.str "movie" ∨ it.type = FieldVal.str "episode") ∧
      intOrNone it.season ∧ intOrNone it.year ∧ intOrNone it.imdb_id := by
  obtain ⟨src⟩ := h
  cases src with
  | none => simp [processHit] at hok
  | some entry =>
    simp only [processHit] at hok
    cases hph : imdbPhase { baseItem entry with
        type := FieldVal.str (typeMap (baseItem entry).type) } with
    | error m => rw [hph] at hok; simp at hok
    | ok item2 =>
      rw [hph] at hok
      obtain ⟨hty, hrest⟩ := coercePhase_shape _ _ hok
      refine ⟨?_, hrest⟩
      rw [hty, seasonFallback_type, imdbPhase_type _ _ hph]
      exact Or.imp (fun h2 => by simp [h2]) (fun h2 => by simp [h2])
        (typeMap_shape (baseItem entry).type)

theorem search_candidates_shape (hits : List RawHit) (title : String)
    (s e y : Option Nat) (cs : List Item)
    (hok : search_candidates title s e y hits = Except.ok cs) :
    ∀ c ∈ cs, (c.type = FieldVal.str "movie" ∨ c.type = FieldVal.str "episode") ∧
      intOrNone c.season ∧ intOrNone c.year ∧ intOrNone c.imdb_id := by
  induction hits generalizing cs with
  | nil =>
    simp only [search_candidates, Except.ok.injEq] at hok
    subst hok
    intro c hc
    simp at hc
  | cons hit rest ih =>
    simp only [search_candidates] at hok
    cases hph : processHit hit with
    | error m => rw [hph] at hok; simp at hok
    | ok item =>
      rw [hph] at hok
      cases hrest : search_candidates title s e y rest with
      | error m => rw [hrest] at hok; simp at hok
      | ok cs' =>
        rw [hrest] at hok
        simp only [Except.ok.injEq] at hok
        subst hok
        intro c hc
        split at hc
        · rcases hc with _ | hc
          · exact processHit_shape _ _ hph
          · exact ih cs' hrest c (by assumption)
        · exact ih cs' hrest c hc

/-- The normalized candidate produced from `movieSource` (used to witness
the candidate invariants at a concrete input). -/
def upItem : Item :=
  { id := FieldVal.str "7", type := FieldVal.str "movie", title := FieldVal.str "Up",
    series := FieldVal.str "Up", season := FieldVal.none, year := FieldVal.int 2009,
    title_br := FieldVal.str "Up Altas Aventuras", imdb_id := FieldVal.int 1049413 }

/-! ### Claim theorems -/

/-- C1, counterexample: with no year on either side and actual type
"movie", expected title "Up" against actual title "Up 2" *does* match
(the partial comparison of line 140 is the only title check performed,
because line 142's year-inequality guard is not taken when both years are
`None`), contradicting the claim that this call returns false. -/
theorem claim1_counterexample :
    matchesPred ⟨some "movie", some "Up 2", Option.none, Option.none, Option.none⟩
      "Up" Option.none Option.none Option.none false = true := by decide

/-- C1, amended: in the movie branch, when neither the expected year nor
the actual year is present the predicate requires only *partial*
sanitized title equality (so "Up" vs "Up 2" matches, and "Up" vs "Up"
matches); the exact (non-partial) fallback is required exactly when the
two year fields differ, in particular when exactly one of them is
present. -/
theorem claim1_amended :
    (matchesPred ⟨some "movie", some "Up 2", Option.none, Option.none, Option.none⟩
      "Up" Option.none Option.none Option.none false = true) ∧
    (matchesPred ⟨some "movie", some "Up", Option.none, Option.none, Option.none⟩
      "Up" Option.none Option.none Option.none false = true) ∧
    (∀ (ti : Option String) (sea ep : Option Nat) (t : String) (ig : Bool),
      matchesPred ⟨some "movie", ti, sea, ep, Option.none⟩ t
        Option.none Option.none Option.none ig = sanitizedStringEqualOpt t ti true) ∧
    (∀ (ti : Option String) (sea ep : Option Nat) (t : String) (y : Nat) (ig : Bool),
      matchesPred ⟨some "movie", ti, sea, ep, some y⟩ t
        Option.none Option.none Option.none ig
        = (sanitizedStringEqualOpt t ti true && sanitizedStringEqualOpt t ti false)) ∧
    (∀ (ti : Option String) (sea ep : Option Nat) (t : String) (y : Nat) (ig : Bool),
      matchesPred ⟨some "movie", ti, sea, ep, Option.none⟩ t
        Option.none Option.none (some y) ig
        = (sanitizedStringEqualOpt t ti true && sanitizedStringEqualOpt t ti false)) := by
  refine ⟨by decide, by decide, ?_, ?_, ?_⟩
  · intro ti sea ep t ig
    cases h : sanitizedStringEqualOpt t ti true <;> simp [matchesPred, pyTruthy, h]
  · intro ti sea ep t y ig
    cases h1 : sanitizedStringEqualOpt t ti true <;>
      cases h2 : sanitizedStringEqualOpt t ti false <;>
        simp [matchesPred, pyTruthy, h1, h2]
  · intro ti sea ep t y ig
    cases h1 : sanitizedStringEqualOpt t ti true <;>
      cases h2 : sanitizedStringEqualOpt t ti false <;>
        simp [matchesPred, pyTruthy, h1, h2]

/-- C2, counterexample: the four records of the claim do *not* come out in
the claimed order (featured/10/8/non-pack first): because the sort is
descending on the whole 4-tuple and `True > False`, the pack record
(featured, 10, 8, pack) is placed *before* its non-pack tie. -/
theorem claim2_counterexample :
    sortSubtitles [recA, recB, recC, recD] = [recB, recA, recC, recD] ∧
      sortSubtitles [recA, recB, recC, recD] ≠ [recA, recB, recC, recD] := by decide

/-- C2, amended: the final sort orders subtitle records descending by the
4-tuple (featured, no_downloads, rating, multiple_episodes) with missing
numeric fields treated as the minimum (every output position is `keyLe`-
below its predecessors), it is a permutation of the input, it is stable
(records with equal keys keep their traversal order), and within records
equal on (featured, no_downloads, rating) it places *pack*
(multiple_episodes = true) records before non-pack records: the four
records of the claim come out as (true,10,8,true), (true,10,8,false),
(false,100,10,false), (false,0,0,false). -/
theorem claim2_amended :
    (∀ l : List LtvSubtitle,
      List.Pairwise (fun a b => keyLe (sortKey b) (sortKey a)) (sortSubtitles l)) ∧
    (∀ l : List LtvSubtitle, List.Perm (sortSubtitles l) l) ∧
    (∀ (l : List LtvSubtitle) (k : Nat × Nat × Nat × Nat),
      (sortSubtitles l).filter (fun s => decide (sortKey s = k)) =
        l.filter (fun s => decide (sortKey s = k))) ∧
    sortSubtitles [recA, recB, recC, recD] = [recB, recA, recC, recD] :=
  ⟨sortSubtitles_pairwise, sortSubtitles_perm, sortSubtitles_stable, by decide⟩

/-- C3: toggling `ignore_episode` from false to true never turns a match
into a non-match — the flag only disables the episode-equality rejection
of line 153 and is read nowhere else. -/
theorem claim3_ignore_episode_mono :
    ∀ (a : ActualProps) (t : String) (s e y : Option Nat),
      matchesPred a t s e y false = true → matchesPred a t s e y true = true := by
  intro a t s e y h
  simp only [matchesPred] at h ⊢
  split_ifs at h ⊢ <;> simp_all

/-- C3 witness: a concrete matching episode query stays a match when
`ignore_episode` is switched on. -/
theorem claim3_witness :
    matchesPred ⟨some "episode", some "Breaking Bad", some 4, some 5, Option.none⟩
      "Breaking Bad" (some 4) (some 5) Option.none false = true ∧
    matchesPred ⟨some "episode", some "Breaking Bad", some 4, some 5, Option.none⟩
      "Breaking Bad" (some 4) (some 5) Option.none true = true :=
  ⟨by decide,
    claim3_ignore_episode_mono ⟨some "episode", some "Breaking Bad", some 4, some 5, Option.none⟩
      "Breaking Bad" (some 4) (some 5) Option.none (by decide)⟩

/-- C4, counterexample: a batch containing a well-formed hit, a hit without
a `'_source'` object and another well-formed hit does not yield the
candidates of the well-formed hits: the whole normalization pass aborts
with the `KeyError` raised by `result['_source']` at line 256. -/
theorem claim4_counterexample :
    search_candidates "Up" Option.none Option.none Option.none
      [⟨some movieSource⟩, noSourceHit, ⟨some movieSource⟩] =
      Except.error "KeyError: _source" := by rfl

/-- C4, amended: a raw search-hit record missing required keys is *not*
skipped: a hit without a `'_source'` object raises `KeyError` (line 256)
and a hit whose imdb-id field is null raises `TypeError` (line 259,
`re.search` on `None`), and either exception aborts the whole
normalization pass, whatever records follow. -/
theorem claim4_amended :
    (∀ (rest : List RawHit) (t : String) (s e y : Option Nat),
      search_candidates t s e y (noSourceHit :: rest) = Except.error "KeyError: _source") ∧
    (∀ (rest : List RawHit) (t : String) (s e y : Option Nat),
      search_candidates t s e y (nullImdbHit :: rest) =
        Except.error "TypeError: expected string or bytes-like object") :=
  ⟨fun _ _ _ _ _ => rfl, fun _ _ _ _ _ => rfl⟩

/-- C5, counterexample: on bytes recognized as neither RAR nor ZIP,
`get_subtitle_names` returns `None` (the `if cf else None` fallback of
`_uncompress`, line 443), not an empty name list. -/
theorem claim5_counterexample :
    get_subtitle_names (DownloadedContent.unrecognized [1, 2, 3]) = Option.none ∧
      get_subtitle_names (DownloadedContent.unrecognized [1, 2, 3]) ≠ some [] := by decide

/-- C5, amended: when `get_subtitle_names` is given bytes that are
recognized as neither a RAR nor a ZIP container it returns a null result
(`None`, which the caller at line 365 treats as "no names"), and
`extract_subtitle` on such bytes returns a null extraction; unrecognized
format is not an error and raises nothing. -/
theorem claim5_amended :
    ∀ (bs : List Nat) (n : String),
      get_subtitle_names (DownloadedContent.unrecognized bs) = Option.none ∧
        extract_subtitle (DownloadedContent.unrecognized bs) n = Option.none :=
  fun _ _ => ⟨rfl, rfl⟩

/-- C6: for recognized archive bytes, `get_subtitle_names` returns exactly
the member names whose lowercase form ends with a configured subtitle
extension and does not contain the substring "legendas.tv"
(case-insensitively, since the lowercase marker is matched against the
lowercased name); on the claim's ZIP it returns exactly
["Show.S01E01.srt"]. -/
theorem claim6_subtitle_names :
    get_subtitle_names (DownloadedContent.zip zipExample) = some ["Show.S01E01.srt"] ∧
    (∀ (cf : ArchiveFile) (n : String), ∃ l,
      get_subtitle_names (DownloadedContent.zip cf) = some l ∧
      get_subtitle_names (DownloadedContent.rar cf) = some l ∧
      (n ∈ l ↔ n ∈ cf.namelist ∧ strOccurs "legendas.tv" (lowerStr n) = false ∧
        (SUBTITLE_EXTENSIONS.any fun ext => endsWithStr (lowerStr n) ext) = true)) := by
  refine ⟨by decide, ?_⟩
  intro cf n
  refine ⟨_, rfl, rfl, ?_⟩
  simp [List.mem_filter, subtitleNameOk, Bool.and_eq_true, Bool.not_eq_true']

/-- C7: the candidate invariants — every candidate produced by a
successful `search_candidates` pass has `type` exactly "movie" or
"episode" (and any raw type code other than "M"/"S"/"C" is mapped to
"movie"), and its `season`, `year` and `imdb_id` fields are each an
integer or absent, never a string. -/
theorem claim7_invariants :
    (∀ (hits : List RawHit) (title : String) (s e y : Option Nat) (cs : List Item),
      search_candidates title s e y hits = Except.ok cs →
      ∀ c ∈ cs, (c.type = FieldVal.str "movie" ∨ c.type = FieldVal.str "episode") ∧
        intOrNone c.season ∧ intOrNone c.year ∧ intOrNone c.imdb_id) ∧
    (∀ v : FieldVal, v ≠ FieldVal.str "M" → v ≠ FieldVal.str "S" → v ≠ FieldVal.str "C" →
      typeMap v = "movie") := by
  refine ⟨search_candidates_shape, ?_⟩
  intro v h1 h2 h3
  unfold typeMap
  split <;> simp_all

/-- C7 witness: the invariants instantiated on the concrete candidate
normalized from `movieSource`. -/
theorem claim7_witness :
    ((upItem.type = FieldVal.str "movie" ∨ upItem.type = FieldVal.str "episode") ∧
      intOrNone upItem.season ∧ intOrNone upItem.year ∧ intOrNone upItem.imdb_id) ∧
    typeMap (FieldVal.str "X") = "movie" :=
  ⟨claim7_invariants.1 [⟨some movieSource⟩] "Up" Option.none Option.none (some 2009)
      [upItem] (by rfl) upItem (by simp),
    claim7_invariants.2 (FieldVal.str "X") (by simp) (by simp) (by simp)⟩

/-- C8: season recovery from the localized title — the season regex
extracts "4" from "Breaking Bad - 4ª Temporada", and the full
normalization of the Breaking Bad raw hit (whose explicit season field is
null) produces exactly one candidate, whose season is the integer 4. -/
theorem claim8_season_extraction :
    seasonSearch "Breaking Bad - 4ª Temporada" = some "4" ∧
    (search_candidates "Breaking Bad" (some 4) (some 3) Option.none
        [⟨some bbSource⟩]).map (List.map Item.season) = Except.ok [FieldVal.int 4] :=
  ⟨by rfl, by rfl⟩

/-- C9: `extract_subtitle` is a pure function of its two inputs — two
calls with the same archive bytes and member name are definitionally the
same value — and on recognized archive bytes that value is the named
member's bytes with CRLF line endings normalized. -/
theorem claim9_extract_deterministic :
    (∀ (c : DownloadedContent) (n : String), extract_subtitle c n = extract_subtitle c n) ∧
    (∀ (cf : ArchiveFile) (n : String),
      extract_subtitle (DownloadedContent.zip cf) n = some (fix_line_ending (cf.read n)) ∧
      extract_subtitle (DownloadedContent.rar cf) n = some (fix_line_ending (cf.read n))) :=
  ⟨fun _ _ => rfl, fun _ _ => ⟨rfl, rfl⟩⟩

/-- C10: when `expected_season` is `None` or 0 (falsy), line 135 derives
the expected type "movie", so any actual properties typed "episode" are
rejected by the type check of line 136. -/
theorem claim10_falsy_season_rejects_episode :
    ∀ (a : ActualProps) (t : String) (s e y : Option Nat) (ig : Bool),
      (s = Option.none ∨ s = some 0) → a.type = some "episode" →
      matchesPred a t s e y ig = false := by
  intro a t s e y ig hs ht
  rcases hs with hs | hs <;> subst hs <;> simp [matchesPred, pyTruthy, ht]

/-- C10 witness: a season-0 query against concrete episode-typed metadata
is rejected. -/
theorem claim10_witness :
    matchesPred ⟨some "episode", some "X", some 0, some 3, Option.none⟩
      "X" (some 0) (some 3) Option.none false = false :=
  claim10_falsy_season_rejects_episode
    ⟨some "episode", some "X", some 0, some 3, Option.none⟩
    "X" (some 0) (some 3) Option.none false (Or.inr rfl) rfl
